import Mathlib

/-!
Verification of the `rc` package (reference counted file descriptors).

The development shallowly embeds the package's two components:

* the handle guard `FD` with its methods `Init`, `Do`, `Close` and the
  helper `WrapSyscallError` (file `rc.go`, package `rc`, v2 API);
* the `LifetimeRegistry` with `recordInit`, `recordClose`, `FDStats`,
  and the `FDStats.Report` / `FDStats.leakedFDs` pair (file `registry.go`).

Modelling conventions:

* Go `error` values become `Option GoError`; `none` is Go `nil`.  Sentinel
  errors are constructors, so propagation "by identity" is equality of
  constructors; `GoError.custom` stands for a caller-made sentinel error
  and `GoError.syscallError` for the value built by `os.NewSyscallError`.
* The registry pointer (`*LifetimeRegistry`, possibly nil) becomes
  `Option LifetimeRegistry`; the nil-receiver checks in the Go methods
  become the `none` cases of `recordInit` / `recordClose` / `FDStatsOf`.
* `lr.callers()` captures the runtime call stack at the `Init` call site;
  the model passes that provenance as an explicit `String` argument, and
  the `runtime.CallersFrames` rendering performed by the Go `FDStats`
  method is the identity on it.
* The Go map `map[int][]uintptr` becomes an association list with
  overwrite-on-insert and delete-all-occurrences semantics (`insertKey`,
  `eraseKey`), which matches Go map semantics because insertion keeps
  keys unique.
* Each `FD` method returns an `OpResult` carrying the returned error, the
  updated struct, and the list of caller-supplied callbacks the method
  invoked (`calls`), so that "fn is invoked exactly once with argument x"
  is expressible.  `runtime.SetFinalizer` (the GC backstop) has no
  observable effect on the sequential semantics and is not modelled.
* The `sync.RWMutex` discipline of `Do` (RLock/RUnlock) and `Close`
  (Lock/Unlock) is modelled separately as a transition system
  (`lockStep`, `ReachableLock`) for the drain-before-release property.
* `Report` emits each captured stack through `fmt.Fprintf(report, stack)`,
  i.e. the stack is used as a printf FORMAT string with no operands.
  `fprintfRun` models fmt's zero-operand behaviour: literal characters are
  copied, `%%` prints `%`, a `%` followed by flags (`#0+- `), width
  digits, and an optional `.`-precision is resolved by its verb character,
  printing `%!v(MISSING)` for verb `v` since no operand is supplied, and a
  `%` whose verb is missing at end of string prints `%!(NOVERB)`.  Star
  (`*`) widths and explicit argument indexes (`[n]`), which do not occur
  in captured stack traces, are treated as ordinary verb characters.
-/

/-- Go `error` values that can flow through the package.  `errUninitializedFD`,
`errClosedFD` and `errMultipleInit` are the package's sentinel errors;
`custom` stands for any other caller-created error value (distinguished by
identity); `syscallError` is the wrapper built by `os.NewSyscallError`. -/
inductive GoError where
  | errUninitializedFD
  | errClosedFD
  | errMultipleInit
  | custom (id : Nat)
  | syscallError (syscall : String) (inner : GoError)
deriving DecidableEq, Repr

/-- Association-list deletion: removes every entry whose key is `k`
(the in-flight map has at most one such entry, see `inFlightSingleEntry`). -/
def eraseKey (k : Int) : List (Int × String) → List (Int × String)
  | [] => []
  | e :: rest => if e.1 = k then eraseKey k rest else e :: eraseKey k rest

/-- Association-list insertion with overwrite, mirroring `m[k] = v` on a Go map. -/
def insertKey (k : Int) (v : String) (m : List (Int × String)) : List (Int × String) :=
  (k, v) :: eraseKey k m

/-- Association-list lookup, mirroring `m[k]` on a Go map. -/
def lookupKey (k : Int) : List (Int × String) → Option String
  | [] => none
  | e :: rest => if e.1 = k then some e.2 else lookupKey k rest

/-- The `LifetimeRegistry` struct: lifecycle counters and the in-flight map
from file descriptor number to the provenance captured at `Init` time.
The `sync.Mutex` guards the fields in Go; the sequential model needs no lock. -/
structure LifetimeRegistry where
  initCount : Nat
  closedCount : Nat
  closeFailedCount : Nat
  inFlight : List (Int × String)
deriving DecidableEq, Repr

/-- The zero value of `LifetimeRegistry`, which Go documents as ready to use. -/
def LifetimeRegistry.zero : LifetimeRegistry := ⟨0, 0, 0, []⟩

/-- Body of `(*LifetimeRegistry).recordInit` for a non-nil receiver:
increments the initialized counter and stores the captured provenance
keyed by the file descriptor number. -/
def LifetimeRegistry.recordInitCore (r : LifetimeRegistry) (fd : Int)
    (prov : String) : LifetimeRegistry :=
  { r with initCount := r.initCount + 1, inFlight := insertKey fd prov r.inFlight }

/-- `(*LifetimeRegistry).recordInit`, including the nil-receiver check. -/
def recordInit : Option LifetimeRegistry → Int → String → Option LifetimeRegistry
  | none, _, _ => none
  | some r, fd, prov => some (r.recordInitCore fd prov)

/-- Body of `(*LifetimeRegistry).recordClose` for a non-nil receiver:
increments `closeFailedCount` when the close error is non-nil and
`closedCount` otherwise, then deletes the descriptor from the in-flight map. -/
def LifetimeRegistry.recordCloseCore (r : LifetimeRegistry) (fd : Int)
    (err : Option GoError) : LifetimeRegistry :=
  let r' := if err.isSome then { r with closeFailedCount := r.closeFailedCount + 1 }
            else { r with closedCount := r.closedCount + 1 }
  { r' with inFlight := eraseKey fd r'.inFlight }

/-- `(*LifetimeRegistry).recordClose`, including the nil-receiver check. -/
def recordClose : Option LifetimeRegistry → Int → Option GoError → Option LifetimeRegistry
  | none, _, _ => none
  | some r, fd, err => some (r.recordCloseCore fd err)

/-- The `FDStats` struct returned by `(*LifetimeRegistry).FDStats`.  The
`InFlightStacks` field is the in-flight map with each provenance rendered
as a string; since the model stores provenance as a string already, the
rendering is the identity. -/
structure FDStats where
  Initialized : Nat
  Closed : Nat
  CloseFailed : Nat
  InFlightStacks : List (Int × String)
deriving DecidableEq, Repr

/-- `(*LifetimeRegistry).FDStats`: a snapshot of the counters and the
in-flight map; a nil registry yields the zero-valued `FDStats`. -/
def FDStatsOf : Option LifetimeRegistry → FDStats
  | none => ⟨0, 0, 0, []⟩
  | some r => ⟨r.initCount, r.closedCount, r.closeFailedCount, r.inFlight⟩

/-- `FDStats.leakedFDs`: whether some descriptor was initialized but never
closed, judged purely from the counters. -/
def FDStats.leakedFDs (stats : FDStats) : Bool :=
  let closed := stats.Closed + stats.CloseFailed
  stats.Initialized != closed

/-- One of fmt's flag characters, consumed between `%` and the verb. -/
def isFmtFlag (c : Char) : Bool :=
  c == '#' || c == '0' || c == '+' || c == '-' || c == ' '

/-- fmt's output for a verb with no operand left: `%!v(MISSING)`. -/
def badVerbOut (v : Char) : List Char :=
  '%' :: '!' :: v :: "(MISSING)".data

/-- fmt's output for a `%` with no verb before end of format: `%!(NOVERB)`. -/
def noVerbOut : List Char := "%!(NOVERB)".data

/-- Phase of fmt's verb parser after a `%`: consuming flags, width digits,
or precision digits (after a `.`). -/
inductive FmtPhase where
  | flags
  | width
  | prec
deriving DecidableEq, Repr

/-- `fmt.Fprintf(w, format)` with zero operands: `none` is literal-copy
mode, `some ph` is inside a `%`-directive in phase `ph`.  Mirrors fmt's
`doPrintf` loop specialised to an empty operand list. -/
def fprintfRun : Option FmtPhase → List Char → List Char
  | none, [] => []
  | none, c :: rest =>
      if c = '%' then fprintfRun (some .flags) rest
      else c :: fprintfRun none rest
  | some _, [] => noVerbOut
  | some ph, c :: rest =>
      if ph = FmtPhase.flags ∧ isFmtFlag c = true then
        fprintfRun (some .flags) rest
      else if (ph = FmtPhase.flags ∨ ph = FmtPhase.width) ∧ c.isDigit = true then
        fprintfRun (some .width) rest
      else if (ph = FmtPhase.flags ∨ ph = FmtPhase.width) ∧ c = '.' then
        fprintfRun (some .prec) rest
      else if ph = FmtPhase.prec ∧ c.isDigit = true then
        fprintfRun (some .prec) rest
      else if c = '%' then '%' :: fprintfRun none rest
      else badVerbOut c ++ fprintfRun none rest

/-- `fmt.Fprintf(w, s)` with no operands, as a string transformer. -/
def fprintfRender (s : String) : String := ⟨fprintfRun none s.data⟩

/-- One block of the report body, printed per in-flight descriptor:
`FD=<n> initialized at:` followed by the captured stack — emitted through
`fmt.Fprintf(report, stack)`, so the stack is interpreted as a format
string — and a separator line. -/
def entryBlock (e : Int × String) : String :=
  "FD=" ++ toString e.1 ++ " initialized at:\n" ++ fprintfRender e.2 ++
    "----------------\n"

/-- Boolean test that `sub` occurs at the head of `l`. -/
def listPrefixOf : List Char → List Char → Bool
  | [], _ => true
  | _ :: _, [] => false
  | x :: xs, y :: ys => x == y && listPrefixOf xs ys

/-- Boolean test that `sub` occurs contiguously anywhere in `l`. -/
def listContainsSub (sub : List Char) : List Char → Bool
  | [] => listPrefixOf sub []
  | c :: rest => listPrefixOf sub (c :: rest) || listContainsSub sub rest

/-- Concatenation of a list of strings, in order. -/
def concatAll : List String → String
  | [] => ""
  | s :: rest => s ++ concatAll rest

/-- `FDStats.Report`: empty when no descriptors leaked, otherwise the
header lines with the three counters followed by one `entryBlock` per
in-flight descriptor. -/
def FDStats.Report (stats : FDStats) : String :=
  if !stats.leakedFDs then ""
  else
    "file descriptor report:\n" ++
    "initialized " ++ toString stats.Initialized ++ " FDs\n" ++
    "closed " ++ toString stats.Closed ++ " FDs successfully\n" ++
    "closed " ++ toString stats.CloseFailed ++ " FDs unsuccessfully\n" ++
    "file descriptors in flight:\n" ++
    "----------------\n" ++
    concatAll (stats.InFlightStacks.map entryBlock)

/-- The `FD` struct: registry pointer, raw descriptor, lifecycle flags and
the stored close function.  The `sync.RWMutex` is modelled separately. -/
structure FD where
  lr : Option LifetimeRegistry
  rawfd : Int
  initialized : Bool
  closed : Bool
  closeFunc : Int → Option GoError

/-- The zero value of `FD` (Go zero struct; the nil `closeFunc` of the zero
value is never invoked by any method, so any placeholder is faithful). -/
def FD.zero : FD := ⟨none, 0, false, false, fun _ => none⟩

/-- `(*FD).TrackLifetime`: stores the registry pointer. -/
def FD.TrackLifetime (fd : FD) (lr : Option LifetimeRegistry) : FD :=
  { fd with lr := lr }

/-- A caller-supplied callback invocation performed by an `FD` method:
either the stored `closeFunc` or a `Do` callback, with its argument. -/
inductive CallEvent where
  | closeCall (arg : Int)
  | doCall (arg : Int)
deriving DecidableEq, Repr

/-- Result of one `FD` method call: the returned error, the struct state
after the call (with the registry it points to), and the caller-supplied
callbacks the method invoked, in order. -/
structure OpResult where
  err : Option GoError
  fd : FD
  calls : List CallEvent

/-- `(*FD).Init`: fails with `ErrClosedFD` on a closed FD, with
`ErrMultipleInit` on an initialized FD; otherwise stores the descriptor and
the close function, records the init event with the registry, and succeeds.
(`runtime.SetFinalizer` arms the GC backstop and is not modelled.) -/
def FD.Init (fd : FD) (rawfd : Int) (closeFunc : Int → Option GoError)
    (prov : String) : OpResult :=
  if fd.closed then ⟨some .errClosedFD, fd, []⟩
  else if fd.initialized then ⟨some .errMultipleInit, fd, []⟩
  else
    ⟨none,
      { fd with rawfd := rawfd, initialized := true, closeFunc := closeFunc,
                lr := recordInit fd.lr rawfd prov },
      []⟩

/-- `(*FD).Do`: fails with `ErrUninitializedFD` before `Init`, with
`ErrClosedFD` after `Close`; otherwise invokes `fn` once on the stored
descriptor and returns its result unchanged. -/
def FD.Do (fd : FD) (fn : Int → Option GoError) : OpResult :=
  if !fd.initialized then ⟨some .errUninitializedFD, fd, []⟩
  else if fd.closed then ⟨some .errClosedFD, fd, []⟩
  else ⟨fn fd.rawfd, fd, [.doCall fd.rawfd]⟩

/-- `(*FD).Close`: fails with `ErrUninitializedFD` before `Init`, with
`ErrClosedFD` after a previous `Close`; otherwise marks the FD closed,
invokes the stored close function once on the stored descriptor, records
the close event (with the close function's error) with the registry, and
returns the close function's result unchanged. -/
def FD.Close (fd : FD) : OpResult :=
  if !fd.initialized then ⟨some .errUninitializedFD, fd, []⟩
  else if fd.closed then ⟨some .errClosedFD, fd, []⟩
  else
    let err := fd.closeFunc fd.rawfd
    ⟨err, { fd with closed := true, lr := recordClose fd.lr fd.rawfd err },
      [.closeCall fd.rawfd]⟩

/-- `WrapSyscallError`: nil passes through, the two lifecycle sentinels pass
through unwrapped, anything else is wrapped by `os.NewSyscallError` with
the syscall name. -/
def WrapSyscallError (syscall : String) (err : Option GoError) : Option GoError :=
  match err with
  | none => none
  | some e =>
      if e = .errUninitializedFD ∨ e = .errClosedFD then some e
      else some (.syscallError syscall e)

/-- State of the `sync.RWMutex` inside an `FD`: the number of `Do` calls
currently holding the read lock, and whether a `Close` call holds the
write lock. -/
structure LockState where
  readers : Nat
  writer : Bool
deriving DecidableEq, Repr

/-- The four lock operations the `FD` methods perform: `Do` brackets its
callback with `rlock`/`runlock`, `Close` brackets its body (including the
`closeFunc` invocation) with `lock`/`unlock`. -/
inductive LockOp where
  | rlock
  | runlock
  | lock
  | unlock
deriving DecidableEq, Repr

/-- Semantics of one lock operation: `none` means the operation blocks in
that state.  Acquiring the write lock requires that no reader holds the
lock, which is how `Close` waits for every active `Do` to return. -/
def lockStep : LockState → LockOp → Option LockState
  | ⟨r, w⟩, .rlock => if w then none else some ⟨r + 1, w⟩
  | ⟨r, w⟩, .runlock =>
      match r with
      | 0 => none
      | Nat.succ r' => some ⟨r', w⟩
  | ⟨r, w⟩, .lock => if r = 0 ∧ w = false then some ⟨0, true⟩ else none
  | ⟨r, w⟩, .unlock => if w then some ⟨r, false⟩ else none

/-- Lock states reachable from the initial (unlocked) state by enabled
lock operations. -/
inductive ReachableLock : LockState → Prop where
  | init : ReachableLock ⟨0, false⟩
  | step {s s' : LockState} (op : LockOp) :
      ReachableLock s → lockStep s op = some s' → ReachableLock s'

/-- `s` contains `sub` as a contiguous substring. -/
def containsStr (s sub : String) : Prop :=
  ∃ pre post, s.data = pre ++ (sub.data ++ post)

/-- Claim C1 (post-close immutability): after a `Close` call that succeeded
(returned nil) on an `FD`, every subsequent `Init`, `Do` or `Close` on the
resulting state returns `ErrClosedFD`, and none of them invokes any
caller-supplied function (neither a `Do` callback nor the stored close
function). -/
theorem postCloseImmutability (s : FD) (hclose : (FD.Close s).err = none)
    (rawfd : Int) (cf : Int → Option GoError) (prov : String)
    (fn : Int → Option GoError) :
    (((FD.Close s).fd.Init rawfd cf prov).err = some .errClosedFD ∧
      ((FD.Close s).fd.Init rawfd cf prov).calls = []) ∧
    (((FD.Close s).fd.Do fn).err = some .errClosedFD ∧
      ((FD.Close s).fd.Do fn).calls = []) ∧
    ((FD.Close ((FD.Close s).fd)).err = some .errClosedFD ∧
      (FD.Close ((FD.Close s).fd)).calls = []) := by
  by_cases h1 : s.initialized
  · by_cases h2 : s.closed
    · simp [FD.Close, h1, h2] at hclose
    · simp [FD.Close, FD.Init, FD.Do, h1, h2]
  · simp [FD.Close, h1] at hclose

/-- Concrete instance of claim C1: an initialized, open `FD` whose close
function succeeds is closed, and a subsequent `Do` returns `ErrClosedFD`. -/
theorem postCloseImmutabilityWitness :
    (FD.Close ⟨none, 42, true, false, fun _ => none⟩).err = none ∧
    ((FD.Close ⟨none, 42, true, false, fun _ => none⟩).fd.Do
        (fun _ => none)).err = some .errClosedFD :=
  ⟨rfl,
    ((postCloseImmutability ⟨none, 42, true, false, fun _ => none⟩ rfl 1
      (fun _ => none) "p" (fun _ => none)).2.1).1⟩

/-- Claim C2 (init-once): a further `Init` on an `FD` that is initialized and
not closed returns `ErrMultipleInit`, leaves the whole struct (stored handle
value, stored close function, registry pointer) unchanged, and invokes no
caller-supplied function. -/
theorem initOnce (s : FD) (hinit : s.initialized = true) (hopen : s.closed = false)
    (rawfd : Int) (cf : Int → Option GoError) (prov : String) :
    (s.Init rawfd cf prov).err = some .errMultipleInit ∧
    (s.Init rawfd cf prov).fd = s ∧
    (s.Init rawfd cf prov).calls = [] := by
  simp [FD.Init, hinit, hopen]

/-- Concrete instance of claim C2: a second `Init` with a different handle on
an initialized open `FD` fails with `ErrMultipleInit`. -/
theorem initOnceWitness :
    (⟨none, 42, true, false, fun _ => none⟩ : FD).initialized = true ∧
    (⟨none, 42, true, false, fun _ => none⟩ : FD).closed = false ∧
    ((⟨none, 42, true, false, fun _ => none⟩ : FD).Init 43 (fun _ => none)
        "q").err = some .errMultipleInit :=
  ⟨rfl, rfl,
    (initOnce ⟨none, 42, true, false, fun _ => none⟩ rfl rfl 43
      (fun _ => none) "q").1⟩

/-- Claim C3 (Do contract): `Do fn` returns `ErrUninitializedFD` without
invoking `fn` on an uninitialized `FD`, returns `ErrClosedFD` without
invoking `fn` on a closed `FD`, and otherwise invokes `fn` exactly once with
the stored handle and returns its result unchanged; in particular, after a
successful `Init` with handle `rawfd`, `Do fn` invokes `fn` exactly once
with `rawfd` and returns `fn rawfd`. -/
theorem doContract (s : FD) (fn : Int → Option GoError) :
    (s.initialized = false →
      (s.Do fn).err = some .errUninitializedFD ∧ (s.Do fn).calls = []) ∧
    (s.initialized = true → s.closed = true →
      (s.Do fn).err = some .errClosedFD ∧ (s.Do fn).calls = []) ∧
    (s.initialized = true → s.closed = false →
      (s.Do fn).err = fn s.rawfd ∧ (s.Do fn).calls = [.doCall s.rawfd]) ∧
    (∀ (rawfd : Int) (cf : Int → Option GoError) (prov : String),
      (s.Init rawfd cf prov).err = none →
      ((s.Init rawfd cf prov).fd.Do fn).err = fn rawfd ∧
      ((s.Init rawfd cf prov).fd.Do fn).calls = [.doCall rawfd]) := by
  refine ⟨?_, ?_, ?_, ?_⟩
  · intro h; simp [FD.Do, h]
  · intro h1 h2; simp [FD.Do, h1, h2]
  · intro h1 h2; simp [FD.Do, h1, h2]
  · intro rawfd cf prov h
    by_cases h1 : s.closed
    · simp [FD.Init, h1] at h
    · by_cases h2 : s.initialized
      · simp [FD.Init, h1, h2] at h
      · simp [FD.Init, FD.Do, h1, h2]

/-- Concrete instance of claim C3: `Do` on the zero `FD` fails with
`ErrUninitializedFD`, and after a successful `Init` with handle 42 the
callback's error is returned verbatim. -/
theorem doContractWitness :
    FD.zero.initialized = false ∧
    (FD.zero.Do (fun _ => some (.custom 3))).err = some .errUninitializedFD ∧
    (FD.zero.Init 42 (fun _ => none) "p").err = none ∧
    ((FD.zero.Init 42 (fun _ => none) "p").fd.Do
        (fun _ => some (.custom 3))).err = some (.custom 3) :=
  ⟨rfl, ((doContract FD.zero (fun _ => some (.custom 3))).1 rfl).1, rfl,
    ((doContract FD.zero (fun _ => some (.custom 3))).2.2.2 42
      (fun _ => none) "p" rfl).1⟩

/-- Claim C4 (Close contract): on an uninitialized `FD`, `Close` returns
`ErrUninitializedFD` invoking nothing and changing nothing; on an
initialized open `FD`, `Close` marks the FD closed, invokes the stored
close function exactly once with the stored handle, records the close
event with the attached registry, returns the close function's result
unchanged, and — whether or not that result is an error — a second `Close`
returns `ErrClosedFD` without invoking anything, as does any `Do`. -/
theorem closeContract (s : FD) :
    (s.initialized = false →
      (FD.Close s).err = some .errUninitializedFD ∧
      (FD.Close s).calls = [] ∧ (FD.Close s).fd = s) ∧
    (s.initialized = true → s.closed = false →
      (FD.Close s).fd.closed = true ∧
      (FD.Close s).calls = [.closeCall s.rawfd] ∧
      (FD.Close s).err = s.closeFunc s.rawfd ∧
      (FD.Close s).fd.lr = recordClose s.lr s.rawfd (s.closeFunc s.rawfd) ∧
      ((FD.Close ((FD.Close s).fd)).err = some .errClosedFD ∧
        (FD.Close ((FD.Close s).fd)).calls = []) ∧
      (∀ fn, (((FD.Close s).fd).Do fn).err = some .errClosedFD ∧
        (((FD.Close s).fd).Do fn).calls = [])) := by
  constructor
  · intro h; simp [FD.Close, h]
  · intro h1 h2
    simp [FD.Close, FD.Do, h1, h2]

/-- Concrete instance of claim C4: closing an `FD` with a failing close
function returns that error, still marks the FD closed, and a second
`Close` fails with `ErrClosedFD` without invoking the close function. -/
theorem closeContractWitness :
    (⟨some LifetimeRegistry.zero, 7, true, false, fun _ => some (.custom 1)⟩ :
        FD).initialized = true ∧
    (FD.Close ⟨some LifetimeRegistry.zero, 7, true, false,
        fun _ => some (.custom 1)⟩).err = some (.custom 1) ∧
    (FD.Close ⟨some LifetimeRegistry.zero, 7, true, false,
        fun _ => some (.custom 1)⟩).fd.closed = true ∧
    (FD.Close ((FD.Close ⟨some LifetimeRegistry.zero, 7, true, false,
        fun _ => some (.custom 1)⟩).fd)).calls = [] :=
  ⟨rfl,
    (closeContract ⟨some LifetimeRegistry.zero, 7, true, false,
      fun _ => some (.custom 1)⟩).2 rfl rfl |>.2.2.1,
    (closeContract ⟨some LifetimeRegistry.zero, 7, true, false,
      fun _ => some (.custom 1)⟩).2 rfl rfl |>.1,
    (closeContract ⟨some LifetimeRegistry.zero, 7, true, false,
      fun _ => some (.custom 1)⟩).2 rfl rfl |>.2.2.2.2.1.2⟩

/-- Every reachable lock state with the write lock held has no readers. -/
theorem reachableLock_writer_readers_zero :
    ∀ s : LockState, ReachableLock s → s.writer = true → s.readers = 0 := by
  intro s hs
  induction hs with
  | init => intro h; simp at h
  | step op hs hstep ih =>
      rename_i t t'
      intro hw
      cases op with
      | rlock =>
          by_cases h : t.writer
          · simp [lockStep, h] at hstep
          · obtain ⟨r, w⟩ := t
            simp at h
            simp [lockStep, h] at hstep
            subst hstep
            simp at hw
      | runlock =>
          obtain ⟨r, w⟩ := t
          cases r with
          | zero => simp [lockStep] at hstep
          | succ r' =>
              simp [lockStep] at hstep
              subst hstep
              simp at hw
              have := ih (by simpa using hw)
              simp at this
      | lock =>
          obtain ⟨r, w⟩ := t
          simp only [lockStep] at hstep
          split at hstep
          · cases hstep; rfl
          · cases hstep
      | unlock =>
          obtain ⟨r, w⟩ := t
          simp only [lockStep] at hstep
          split at hstep
          · cases hstep; simp at hw
          · cases hstep

/-- A state with `n` readers and no writer is reachable, for every `n`. -/
theorem reachableLock_readers (n : Nat) : ReachableLock ⟨n, false⟩ := by
  induction n with
  | zero => exact ReachableLock.init
  | succ n ih => exact ReachableLock.step .rlock ih rfl

/-- Claim C5 (drain-before-release): in the lock protocol that `Do` and
`Close` follow (`Do` holds the read lock for the duration of its callback,
`Close` invokes the stored close function and returns only after acquiring
the write lock), every reachable state in which `Close` holds the write
lock has zero active `Do` calls — so every `Do` active when `Close` was
requested has returned before `Close` proceeds — while arbitrarily many
concurrent `Do` calls may hold the read lock when no `Close` is in
progress. -/
theorem drainBeforeRelease :
    (∀ s : LockState, ReachableLock s → s.writer = true → s.readers = 0) ∧
    (∀ n : Nat, ReachableLock ⟨n, false⟩) :=
  ⟨reachableLock_writer_readers_zero, reachableLock_readers⟩

/-- Concrete instance of claim C5: the state reached by three `Do`
acquisitions is reachable, and in the writer-held state reached by a
`Close` acquisition the reader count is zero. -/
theorem drainBeforeReleaseWitness :
    ReachableLock ⟨3, false⟩ ∧
    ReachableLock ⟨0, true⟩ ∧
    LockState.readers ⟨0, true⟩ = 0 :=
  ⟨drainBeforeRelease.2 3,
    ReachableLock.step .lock (drainBeforeRelease.2 0) rfl,
    drainBeforeRelease.1 ⟨0, true⟩
      (ReachableLock.step .lock (drainBeforeRelease.2 0) rfl) rfl⟩

/-- Claim C8 (registry nil-safety): `recordInit` and `recordClose` on a nil
registry are no-ops for every argument, `FDStats` of a nil registry is the
zero-valued statistics, attaching a nil registry leaves the `FD` with no
registry, and the error, callback invocations, and non-registry state
produced by `Init`, `Do` and `Close` do not depend on the registry pointer
at all — so an `FD` tracking a nil registry behaves exactly like an
untracked one. -/
theorem registryNilSafety :
    (∀ (fd : Int) (prov : String), recordInit none fd prov = none) ∧
    (∀ (fd : Int) (err : Option GoError), recordClose none fd err = none) ∧
    FDStatsOf none = ⟨0, 0, 0, []⟩ ∧
    (∀ s : FD, (s.TrackLifetime none).lr = none) ∧
    (∀ (s : FD) (lr₁ lr₂ : Option LifetimeRegistry) (rawfd : Int)
        (cf : Int → Option GoError) (prov : String) (fn : Int → Option GoError),
      (({ s with lr := lr₁ } : FD).Init rawfd cf prov).err =
        (({ s with lr := lr₂ } : FD).Init rawfd cf prov).err ∧
      (({ s with lr := lr₁ } : FD).Init rawfd cf prov).calls =
        (({ s with lr := lr₂ } : FD).Init rawfd cf prov).calls ∧
      (({ s with lr := lr₁ } : FD).Init rawfd cf prov).fd.TrackLifetime none =
        (({ s with lr := lr₂ } : FD).Init rawfd cf prov).fd.TrackLifetime none ∧
      (({ s with lr := lr₁ } : FD).Do fn).err =
        (({ s with lr := lr₂ } : FD).Do fn).err ∧
      (({ s with lr := lr₁ } : FD).Do fn).calls =
        (({ s with lr := lr₂ } : FD).Do fn).calls ∧
      (FD.Close { s with lr := lr₁ }).err = (FD.Close { s with lr := lr₂ }).err ∧
      (FD.Close { s with lr := lr₁ }).calls =
        (FD.Close { s with lr := lr₂ }).calls ∧
      (FD.Close { s with lr := lr₁ }).fd.TrackLifetime none =
        (FD.Close { s with lr := lr₂ }).fd.TrackLifetime none) := by
  refine ⟨fun _ _ => rfl, fun _ _ => rfl, rfl, fun _ => rfl, ?_⟩
  intro s lr₁ lr₂ rawfd cf prov fn
  by_cases h1 : s.closed <;> by_cases h2 : s.initialized <;>
    simp [FD.Init, FD.Do, FD.Close, FD.TrackLifetime, h1, h2]

/-- Claim C9 (WrapSyscallError classification): nil passes through, the two
lifecycle sentinels pass through unwrapped by identity, and any other
non-nil error is wrapped with the syscall name around the original error. -/
theorem wrapSyscallErrorContract (name : String) :
    WrapSyscallError name none = none ∧
    WrapSyscallError name (some .errUninitializedFD) =
      some .errUninitializedFD ∧
    WrapSyscallError name (some .errClosedFD) = some .errClosedFD ∧
    (∀ e : GoError, e ≠ .errUninitializedFD → e ≠ .errClosedFD →
      WrapSyscallError name (some e) = some (.syscallError name e)) := by
  refine ⟨rfl, rfl, rfl, ?_⟩
  intro e h1 h2
  simp [WrapSyscallError, h1, h2]

/-- Concrete instance of claim C9: `ErrMultipleInit` is neither lifecycle
sentinel, so it gets wrapped with the syscall name. -/
theorem wrapSyscallErrorWitness :
    WrapSyscallError "close" (some .errMultipleInit) =
      some (.syscallError "close" .errMultipleInit) :=
  (wrapSyscallErrorContract "close").2.2.2 .errMultipleInit
    (by decide) (by decide)

/-- The character data of an appended string is the appended character data. -/
theorem strData_append (a b : String) : (a ++ b).data = a.data ++ b.data := by
  cases a
  cases b
  rfl

/-- Appending preserves substring containment on the right operand. -/
theorem containsStr_append_left (a b sub : String) (h : containsStr b sub) :
    containsStr (a ++ b) sub := by
  obtain ⟨pre, post, hp⟩ := h
  exact ⟨a.data ++ pre, post, by rw [strData_append, hp, List.append_assoc]⟩

/-- Appending preserves substring containment on the left operand. -/
theorem containsStr_append_right (a b sub : String) (h : containsStr a sub) :
    containsStr (a ++ b) sub := by
  obtain ⟨pre, post, hp⟩ := h
  refine ⟨pre, post ++ b.data, ?_⟩
  rw [strData_append, hp]
  simp [List.append_assoc]

/-- Every string contains itself. -/
theorem containsStr_self (s : String) : containsStr s s := ⟨[], [], by simp⟩

/-- If the leak condition holds, `Report` is the full report string. -/
theorem report_of_leak (stats : FDStats) (h : stats.leakedFDs = true) :
    stats.Report =
      "file descriptor report:\n" ++
      "initialized " ++ toString stats.Initialized ++ " FDs\n" ++
      "closed " ++ toString stats.Closed ++ " FDs successfully\n" ++
      "closed " ++ toString stats.CloseFailed ++ " FDs unsuccessfully\n" ++
      "file descriptors in flight:\n" ++
      "----------------\n" ++
      concatAll (stats.InFlightStacks.map entryBlock) := by
  simp [FDStats.Report, h]

/-- Equal counters make `leakedFDs` false. -/
theorem leakedFDs_false {stats : FDStats}
    (h : stats.Initialized = stats.Closed + stats.CloseFailed) :
    stats.leakedFDs = false := by
  simp [FDStats.leakedFDs, h]

/-- Unequal counters make `leakedFDs` true. -/
theorem leakedFDs_true {stats : FDStats}
    (h : stats.Initialized ≠ stats.Closed + stats.CloseFailed) :
    stats.leakedFDs = true := by
  simp [FDStats.leakedFDs]
  exact h

/-- A string whose left append operand has nonempty data has nonempty data. -/
theorem data_append_left_ne_nil {a : String} (h : a.data ≠ []) (b : String) :
    (a ++ b).data ≠ [] := by
  rw [strData_append]
  intro hc
  exact h (List.append_eq_nil.mp hc).1

/-- Each block of an in-flight entry occurs inside the concatenation of all
blocks. -/
theorem concatAll_of_mem {l : List (Int × String)} {e : Int × String}
    (he : e ∈ l) :
    ∃ pre post, (concatAll (l.map entryBlock)).data =
      pre ++ ((entryBlock e).data ++ post) := by
  induction l with
  | nil => cases he
  | cons x xs ih =>
      rcases List.mem_cons.mp he with h | h
      · subst h
        exact ⟨[], (concatAll (xs.map entryBlock)).data, by
          simp [concatAll, strData_append]⟩
      · obtain ⟨pre, post, hp⟩ := ih h
        exact ⟨(entryBlock x).data ++ pre, post, by
          simp [concatAll, strData_append, hp]⟩

/-- A substring of one entry's block is a substring of the concatenation of
all blocks of a list containing that entry. -/
theorem containsStr_of_block {l : List (Int × String)} {e : Int × String}
    (he : e ∈ l) {sub : String} (h : containsStr (entryBlock e) sub) :
    containsStr (concatAll (l.map entryBlock)) sub := by
  obtain ⟨pre, post, hp⟩ := concatAll_of_mem he
  obtain ⟨pre', post', hq⟩ := h
  exact ⟨pre ++ pre', post' ++ post, by rw [hp, hq]; simp [List.append_assoc]⟩

/-- An entry's block contains the descriptor number after the `FD=` marker. -/
theorem entryBlock_contains_fd (e : Int × String) :
    containsStr (entryBlock e) ("FD=" ++ toString e.1) := by
  unfold entryBlock
  exact containsStr_append_right _ _ _ (containsStr_append_right _ _ _
    (containsStr_append_right _ _ _ (containsStr_self _)))

/-- fmt with zero operands copies a format containing no `%` verbatim. -/
theorem fprintfRun_no_pct : ∀ l : List Char, '%' ∉ l → fprintfRun none l = l := by
  intro l
  induction l with
  | nil => intro _; rfl
  | cons c rest ih =>
      intro h
      have hc : ¬ c = '%' := fun hc => h (by simp [hc])
      have hr : '%' ∉ rest := fun hm => h (List.mem_cons_of_mem c hm)
      simp only [fprintfRun, if_neg hc]
      rw [ih hr]

/-- `fprintfRender` is the identity on strings containing no `%`. -/
theorem fprintfRender_no_pct {s : String} (h : '%' ∉ s.data) :
    fprintfRender s = s := by
  cases s with
  | mk d =>
      unfold fprintfRender
      rw [fprintfRun_no_pct d h]

/-- An entry's block contains the captured provenance verbatim whenever the
provenance contains no `%` character (otherwise fmt mangles it). -/
theorem entryBlock_contains_stack (e : Int × String) (h : '%' ∉ e.2.data) :
    containsStr (entryBlock e) e.2 := by
  unfold entryBlock
  rw [fprintfRender_no_pct h]
  exact containsStr_append_right _ _ _
    (containsStr_append_left _ _ _ (containsStr_self _))

/-- Claim C6 as amended (leak report iff): `Report` is the empty string
exactly when the initialized counter equals the sum of the closed and
close-failed counters; otherwise it is nonempty and contains, for every
in-flight entry, the entry's descriptor number (as `FD=<n>`), and the
entry's captured provenance verbatim whenever that provenance contains no
`%` character — `Report` emits the provenance through `fmt.Fprintf` as a
format string, so a provenance with `%` verbs is mangled and not contained
verbatim. -/
theorem leakReportIff (stats : FDStats) :
    (stats.Report = "" ↔
      stats.Initialized = stats.Closed + stats.CloseFailed) ∧
    (stats.Initialized ≠ stats.Closed + stats.CloseFailed →
      stats.Report ≠ "" ∧
      ∀ e ∈ stats.InFlightStacks,
        containsStr stats.Report ("FD=" ++ toString e.1) ∧
        ('%' ∉ e.2.data → containsStr stats.Report e.2)) := by
  have hne_rep : stats.Initialized ≠ stats.Closed + stats.CloseFailed →
      stats.Report ≠ "" := by
    intro h hc
    have hd : stats.Report.data = [] := by rw [hc]
    rw [report_of_leak stats (leakedFDs_true h)] at hd
    revert hd
    apply data_append_left_ne_nil
    apply data_append_left_ne_nil
    apply data_append_left_ne_nil
    apply data_append_left_ne_nil
    apply data_append_left_ne_nil
    apply data_append_left_ne_nil
    apply data_append_left_ne_nil
    apply data_append_left_ne_nil
    apply data_append_left_ne_nil
    apply data_append_left_ne_nil
    apply data_append_left_ne_nil
    apply data_append_left_ne_nil
    decide
  constructor
  · constructor
    · intro hrep0
      by_contra hne
      exact hne_rep hne hrep0
    · intro hE
      simp [FDStats.Report, leakedFDs_false hE]
  · intro hne
    refine ⟨hne_rep hne, ?_⟩
    intro e he
    rw [report_of_leak stats (leakedFDs_true hne)]
    constructor
    · exact containsStr_append_left _ _ _
        (containsStr_of_block he (entryBlock_contains_fd e))
    · intro hpct
      exact containsStr_append_left _ _ _
        (containsStr_of_block he (entryBlock_contains_stack e hpct))

/-- Concrete instance of claim C6: with two initializations, one close and a
leaked descriptor 43 whose provenance has no `%`, the report is nonempty
and contains the provenance verbatim. -/
theorem leakReportIffWitness :
    (2 : Nat) ≠ 1 + 0 ∧
    ('%' : Char) ∉ "stackB".data ∧
    (⟨2, 1, 0, [(43, "stackB")]⟩ : FDStats).Report ≠ "" ∧
    containsStr (FDStats.Report ⟨2, 1, 0, [(43, "stackB")]⟩) "stackB" := by
  refine ⟨by decide, by decide, ?_, ?_⟩
  · exact ((leakReportIff ⟨2, 1, 0, [(43, "stackB")]⟩).2 (by decide)).1
  · exact (((leakReportIff ⟨2, 1, 0, [(43, "stackB")]⟩).2 (by decide)).2
      (43, "stackB") (by simp)).2 (by decide)

/-- `listPrefixOf` decides occurrence at the head. -/
theorem listPrefixOf_iff (sub : List Char) :
    ∀ l : List Char, listPrefixOf sub l = true ↔ ∃ post, l = sub ++ post := by
  induction sub with
  | nil =>
      intro l
      simp [listPrefixOf]
  | cons a as ih =>
      intro l
      cases l with
      | nil =>
          simp [listPrefixOf]
      | cons b bs =>
          simp only [listPrefixOf, Bool.and_eq_true, beq_iff_eq, ih,
            List.cons_append, List.cons.injEq]
          constructor
          · rintro ⟨rfl, post, rfl⟩
            exact ⟨post, rfl, rfl⟩
          · rintro ⟨post, rfl, rfl⟩
            exact ⟨rfl, post, rfl⟩

/-- `listContainsSub` decides contiguous containment. -/
theorem listContainsSub_iff (sub : List Char) :
    ∀ l : List Char, listContainsSub sub l = true ↔
      ∃ pre post, l = pre ++ (sub ++ post) := by
  intro l
  induction l with
  | nil =>
      simp only [listContainsSub, listPrefixOf_iff]
      constructor
      · rintro ⟨post, h⟩
        exact ⟨[], post, h⟩
      · rintro ⟨pre, post, h⟩
        rcases List.append_eq_nil.mp h.symm with ⟨-, h2⟩
        rcases List.append_eq_nil.mp h2 with ⟨h3, -⟩
        exact ⟨[], by simp [h3]⟩
  | cons c rest ih =>
      simp only [listContainsSub, Bool.or_eq_true, listPrefixOf_iff, ih]
      constructor
      · rintro (⟨post, h⟩ | ⟨pre, post, h⟩)
        · exact ⟨[], post, by simpa using h⟩
        · exact ⟨c :: pre, post, by simp [h]⟩
      · rintro ⟨pre, post, h⟩
        cases pre with
        | nil => exact Or.inl ⟨post, by simpa using h⟩
        | cons p ps =>
            rcases List.cons.injEq .. ▸ h with ⟨rfl, h2⟩
            exact Or.inr ⟨ps, post, h2⟩

/-- `containsStr` agrees with the boolean containment checker. -/
theorem containsStr_iff_checker (s sub : String) :
    containsStr s sub ↔ listContainsSub sub.data s.data = true :=
  (listContainsSub_iff sub.data s.data).symm

/-- Claim C6, counterexample to the original statement: a leaked descriptor
whose captured provenance is `100%d\n` is reported, but `Report` passes the
provenance through `fmt.Fprintf` as a format string, rendering it as
`100%!d(MISSING)\n`, so the report does not contain the captured
provenance string. -/
theorem leakReportMangledCounterexample :
    (1 : Nat) ≠ 0 + 0 ∧
    (((5 : Int), "100%d\n") ∈
      (⟨1, 0, 0, [(5, "100%d\n")]⟩ : FDStats).InFlightStacks) ∧
    containsStr (FDStats.Report ⟨1, 0, 0, [(5, "100%d\n")]⟩)
      "100%!d(MISSING)\n" ∧
    ¬ containsStr (FDStats.Report ⟨1, 0, 0, [(5, "100%d\n")]⟩) "100%d\n" := by
  refine ⟨by decide, by simp, ?_, fun h => ?_⟩
  · exact (containsStr_iff_checker _ _).mpr (by decide)
  · exact absurd ((containsStr_iff_checker _ _).mp h) (by decide)

/-- Looking up a key just deleted from the in-flight map yields nothing. -/
theorem lookupKey_eraseKey (k : Int) (l : List (Int × String)) :
    lookupKey k (eraseKey k l) = none := by
  induction l with
  | nil => rfl
  | cons e rest ih =>
      by_cases h : e.1 = k
      · simp [eraseKey, h, ih]
      · simp [eraseKey, lookupKey, h, ih]

/-- Claim C7 (close-event recording): on a non-nil registry, `recordClose`
increments exactly one of the two close counters — `closedCount` on a nil
error, `closeFailedCount` otherwise — leaves the initialized counter
unchanged, and removes the descriptor from the in-flight map in both
cases; in particular, a tracked `FD` initialized with handle 7 and a
failing close function shows, after `Close`, a snapshot with
`CloseFailed = 1` and handle 7 absent from the in-flight map. -/
theorem recordCloseContract (r : LifetimeRegistry) (fd : Int)
    (err : Option GoError) :
    recordClose (some r) fd err = some (r.recordCloseCore fd err) ∧
    (err = none →
      (r.recordCloseCore fd err).closedCount = r.closedCount + 1 ∧
      (r.recordCloseCore fd err).closeFailedCount = r.closeFailedCount) ∧
    (err ≠ none →
      (r.recordCloseCore fd err).closeFailedCount = r.closeFailedCount + 1 ∧
      (r.recordCloseCore fd err).closedCount = r.closedCount) ∧
    (r.recordCloseCore fd err).initCount = r.initCount ∧
    lookupKey fd (r.recordCloseCore fd err).inFlight = none ∧
    (FDStatsOf (FD.Close ((FD.zero.TrackLifetime
        (some LifetimeRegistry.zero)).Init 7 (fun _ => some (.custom 1))
        "site").fd).fd.lr).CloseFailed = 1 ∧
    lookupKey 7 (FDStatsOf (FD.Close ((FD.zero.TrackLifetime
        (some LifetimeRegistry.zero)).Init 7 (fun _ => some (.custom 1))
        "site").fd).fd.lr).InFlightStacks = none := by
  refine ⟨rfl, ?_, ?_, ?_, ?_, rfl, rfl⟩
  · intro h
    subst h
    simp [LifetimeRegistry.recordCloseCore]
  · intro h
    cases err with
    | none => exact absurd rfl h
    | some e => simp [LifetimeRegistry.recordCloseCore]
  · cases err <;> simp [LifetimeRegistry.recordCloseCore]
  · cases err <;> simp [LifetimeRegistry.recordCloseCore, lookupKey_eraseKey]

/-- Concrete instance of claim C7: recording a failed close on a registry
with one in-flight descriptor bumps `closeFailedCount` and empties the
in-flight entry for that descriptor. -/
theorem recordCloseContractWitness :
    (some (GoError.custom 1) : Option GoError) ≠ none ∧
    ((⟨1, 0, 0, [(7, "s")]⟩ : LifetimeRegistry).recordCloseCore 7
        (some (.custom 1))).closeFailedCount = 0 + 1 ∧
    lookupKey 7 ((⟨1, 0, 0, [(7, "s")]⟩ : LifetimeRegistry).recordCloseCore 7
        (some (.custom 1))).inFlight = none :=
  ⟨by decide,
    ((recordCloseContract ⟨1, 0, 0, [(7, "s")]⟩ 7
      (some (.custom 1))).2.2.1 (by decide)).1,
    (recordCloseContract ⟨1, 0, 0, [(7, "s")]⟩ 7
      (some (.custom 1))).2.2.2.2.1⟩

/-- Deleting a key from the in-flight map yields a sublist of the map. -/
theorem eraseKey_sublist (k : Int) :
    ∀ l : List (Int × String), List.Sublist (eraseKey k l) l := by
  intro l
  induction l with
  | nil => simp [eraseKey]
  | cons e rest ih =>
      by_cases h : e.1 = k
      · rw [eraseKey, if_pos h]
        exact ih.cons e
      · rw [eraseKey, if_neg h]
        exact ih.cons₂ e

/-- After deleting key `k`, no entry with key `k` remains. -/
theorem not_mem_keys_eraseKey (k : Int) :
    ∀ l : List (Int × String), k ∉ (eraseKey k l).map Prod.fst := by
  intro l
  induction l with
  | nil => simp [eraseKey]
  | cons e rest ih =>
      by_cases h : e.1 = k
      · rw [eraseKey, if_pos h]
        exact ih
      · rw [eraseKey, if_neg h]
        simp only [List.map_cons, List.mem_cons, not_or]
        exact ⟨fun hk => h hk.symm, ih⟩

/-- Inserting into an in-flight map with pairwise distinct keys keeps the
keys pairwise distinct. -/
theorem keys_nodup_insertKey (k : Int) (v : String) {l : List (Int × String)}
    (h : (l.map Prod.fst).Nodup) :
    ((insertKey k v l).map Prod.fst).Nodup := by
  simp only [insertKey, List.map_cons, List.nodup_cons]
  exact ⟨not_mem_keys_eraseKey k l,
    h.sublist ((eraseKey_sublist k l).map Prod.fst)⟩

/-- Looking up a key just inserted yields the inserted value. -/
theorem lookupKey_insertKey (k : Int) (v : String) (l : List (Int × String)) :
    lookupKey k (insertKey k v l) = some v := by
  simp [insertKey, lookupKey]

/-- Claim C10 (one in-flight entry per handle value): registry operations
keep the in-flight map's keys pairwise distinct (starting from the zero
registry), a second `recordInit` with an already-present handle overwrites
the first call's provenance, a single `recordClose` for that handle then
removes the entry entirely, and in the concrete double-init scenario the
snapshot's in-flight map has fewer entries (zero) than the initialized
counter minus the close counters (one), so the leaked descriptor sharing
the handle value has no provenance listed. -/
theorem inFlightSingleEntry :
    (LifetimeRegistry.zero.inFlight.map Prod.fst).Nodup ∧
    (∀ (r : LifetimeRegistry) (fd : Int) (prov : String),
      (r.inFlight.map Prod.fst).Nodup →
      ((r.recordInitCore fd prov).inFlight.map Prod.fst).Nodup) ∧
    (∀ (r : LifetimeRegistry) (fd : Int) (err : Option GoError),
      (r.inFlight.map Prod.fst).Nodup →
      ((r.recordCloseCore fd err).inFlight.map Prod.fst).Nodup) ∧
    (∀ (r : LifetimeRegistry) (fd : Int) (p₁ p₂ : String),
      lookupKey fd
        ((r.recordInitCore fd p₁).recordInitCore fd p₂).inFlight = some p₂) ∧
    (∀ (r : LifetimeRegistry) (fd : Int) (p₁ p₂ : String)
        (err : Option GoError),
      lookupKey fd (((r.recordInitCore fd p₁).recordInitCore fd
        p₂).recordCloseCore fd err).inFlight = none) ∧
    (((LifetimeRegistry.zero.recordInitCore 7 "siteA").recordInitCore 7
        "siteB").recordCloseCore 7 none).initCount = 2 ∧
    ((((LifetimeRegistry.zero.recordInitCore 7 "siteA").recordInitCore 7
        "siteB").recordCloseCore 7 none).closedCount +
      (((LifetimeRegistry.zero.recordInitCore 7 "siteA").recordInitCore 7
        "siteB").recordCloseCore 7 none).closeFailedCount) = 1 ∧
    (((LifetimeRegistry.zero.recordInitCore 7 "siteA").recordInitCore 7
        "siteB").recordCloseCore 7 none).inFlight.length = 0 := by
  refine ⟨by simp [LifetimeRegistry.zero], ?_, ?_, ?_, ?_, rfl, rfl, ?_⟩
  · intro r fd prov h
    exact keys_nodup_insertKey fd prov h
  · intro r fd err h
    cases err <;>
      simp only [LifetimeRegistry.recordCloseCore] <;>
      exact h.sublist ((eraseKey_sublist fd r.inFlight).map Prod.fst)
  · intro r fd p₁ p₂
    exact lookupKey_insertKey fd p₂ _
  · intro r fd p₁ p₂ err
    cases err <;>
      simp [LifetimeRegistry.recordCloseCore, lookupKey_eraseKey]
  · rfl

/-- Concrete instance of claim C10: inserting over distinct keys keeps them
distinct, and the second provenance wins a double init on handle 7. -/
theorem inFlightSingleEntryWitness :
    (([(7, "s"), (9, "t")] : List (Int × String)).map Prod.fst).Nodup ∧
    (((⟨2, 0, 0, [(7, "s"), (9, "t")]⟩ :
        LifetimeRegistry).recordInitCore 7 "u").inFlight.map Prod.fst).Nodup ∧
    lookupKey 7 (((⟨0, 0, 0, []⟩ : LifetimeRegistry).recordInitCore 7
        "a").recordInitCore 7 "b").inFlight = some "b" := by
  refine ⟨by decide, ?_, ?_⟩
  · exact inFlightSingleEntry.2.1 ⟨2, 0, 0, [(7, "s"), (9, "t")]⟩ 7 "u"
      (by decide)
  · exact inFlightSingleEntry.2.2.2.1 ⟨0, 0, 0, []⟩ 7 "a" "b"
